import Mathlib

/-!
# Verification of the SMTP engine of `ses-smtpd-proxy`

Shallow embedding of the Go sources `smtpd/smtpd.go` and `main.go` of the
`mcrute/ses-smtpd-proxy` repository.  Byte strings of the Go code are
modelled as `List Char` (all protocol-relevant data is ASCII); Go errors are
modelled by `GoError` (a structured `SMTPError` carrying its literal status
line, versus any other error value); responses written with `sendlinef` are
collected as `String`s without their trailing CRLF.
-/

namespace SesSmtpd

/-- Go `error` values as the engine distinguishes them
(`smtpd.go`, `SMTPError` at lines 526-530 and the `err.(SMTPError)` type
switches): a structured `SMTPError` carries a complete status line; every
other error is generic and its text is only logged, never sent. -/
inductive GoError where
  | smtp (line : String)
  | generic (msg : String)
deriving DecidableEq, Repr

/-- Whether a `GoError` is a generic (non-`SMTPError`) error. -/
def GoError.isGeneric : GoError → Bool
  | .smtp _ => false
  | .generic _ => true

/-! ## Command-line parsing (`cmdLine`, smtpd.go lines 489-524) -/

/-- Go `strings.Index(s, string(c))` for a single character: index of the
first occurrence, `none` for the Go result -1. -/
def goIndex (l : List Char) (c : Char) : Option Nat :=
  match l with
  | [] => none
  | x :: xs => if x = c then some 0 else (goIndex xs c).map (· + 1)

/-- Go `strings.LastIndex` for a single character (used by the
spec-modelled `specHostnameLast` only). -/
def goLastIndex (l : List Char) (c : Char) : Option Nat :=
  match goIndex l.reverse c with
  | some i => some (l.length - 1 - i)
  | none => none

/-- Go `unicode.IsSpace` restricted to the Latin-1 range (the engine only
ever right-trims command arguments, which are ASCII on every path the
claims exercise). -/
def goIsSpace (c : Char) : Bool :=
  c = ' ' || c = '\t' || c = '\n' || c = '\x0b' || c = '\x0c' || c = '\r' ||
    c = '\x85' || c = '\xa0'

/-- Go `strings.TrimRightFunc`. -/
def trimRightFunc (l : List Char) (p : Char → Bool) : List Char :=
  (l.reverse.dropWhile p).reverse

/-- Go `strings.HasSuffix(s, "\r\n")`. -/
def endsCRLF (l : List Char) : Bool :=
  l.drop (l.length - 2) == ['\r', '\n']

/-- Go `cmdLine.Verb` (smtpd.go lines 506-512): text before the first space,
upper-cased; if no space, the whole line minus the 2-byte terminator.
Callers invoke this only after `checkValid` accepted the CRLF suffix, so
the `l.length - 2` truncation never underflows on reachable inputs. -/
def verbOf (l : List Char) : String :=
  match goIndex l ' ' with
  | some i => String.mk ((l.take i).map Char.toUpper)
  | none => String.mk ((l.take (l.length - 2)).map Char.toUpper)

/-- Go `cmdLine.Arg` (smtpd.go lines 514-520): text after the first space up
to the terminator, right-trimmed of whitespace; empty if no space. -/
def argOf (l : List Char) : String :=
  match goIndex l ' ' with
  | some i => String.mk (trimRightFunc ((l.take (l.length - 2)).drop (i + 1)) goIsSpace)
  | none => ""

/-- The message of `errors.New` at smtpd.go line 493 — a Go raw string, so
the backslashes are literal characters. -/
def invalidTermMsg : String := "line doesn\x27t end in \\r\\n"

/-- Go `cmdLine.checkValid` (smtpd.go lines 491-504): `none` means the line is
accepted, `some msg` carries the error text that `serve` reports as
`"500 %v"`. -/
def checkValid (l : List Char) : Option String :=
  if endsCRLF l then
    if verbOf l = "RSET" ∨ verbOf l = "DATA" ∨ verbOf l = "QUIT" then
      if argOf l ≠ "" then some "unexpected argument" else none
    else none
  else some invalidTermMsg

/-! ## `addrString` (smtpd.go lines 475-487) -/

/-- Go `addrString.Email`: the address string as provided. -/
def addrEmail (a : List Char) : List Char := a

/-- Go `addrString.Hostname` (smtpd.go lines 481-487): Go computes
`strings.Index(e, "@")` — the index of the FIRST `@` — and lower-cases the
remainder; empty when there is no `@`. -/
def addrHostname (a : List Char) : List Char :=
  match goIndex a '@' with
  | some i => (a.drop (i + 1)).map Char.toLower
  | none => []

/-- Modelled from the spec: "lower-cased hostname portion (substring after
the last `@`; empty string if no `@` present)" — the wording of the spec
for the `Hostname` operation, kept separate to compare with the
source-derived `addrHostname`. -/
def specHostnameLast (a : List Char) : List Char :=
  match goLastIndex a '@' with
  | some i => (a.drop (i + 1)).map Char.toLower
  | none => []

/-! ## The AUTH argument guard (smtpd.go lines 315-336)

`handleAuth` up to and including the indexing `p[1]` that feeds
`base64.StdEncoding.DecodeString`.  `AuthGuard.decodes blob` records that
the handler proceeded to base64-decode `blob`; `panicIndexOutOfRange`
records that Go evaluates `p[1]` on a slice of length 1 (a runtime panic).
-/

inductive AuthGuard where
  /-- Case where `Server.OnAuthentication` is nil: respond 502. -/
  | nilHandler
  /-- already authenticated: respond 503. -/
  | secondAuth
  /-- the `len(p) != 2 && p[0] != "PLAIN"` test fired: respond 502. -/
  | rejected
  /-- Case where `p[1]` is evaluated with `len(p) < 2`: Go index-out-of-range panic. -/
  | panicIndexOutOfRange
  /-- the handler reaches `base64.StdEncoding.DecodeString(p[1])`. -/
  | decodes (blob : List Char)
deriving DecidableEq, Repr

/-- smtpd.go lines 315-336: the prefix of `handleAuth` ending at the call
`base64.StdEncoding.DecodeString(p[1])`.  `hasHandler` is whether
`Server.OnAuthentication` is non-nil; `authenticated` is the session field
(`IsAuthenticated` is `authenticated != ""`); `arg` is `line.Arg()`.
`strings.Split(arg, " ")` is `List.splitOn ' '` (both return `[""]`/`[[]]`
on the empty input and split on every separator occurrence). -/
def handleAuthGuard (hasHandler : Bool) (authenticated : String) (arg : List Char) :
    AuthGuard :=
  if ¬hasHandler then .nilHandler
  else if authenticated ≠ "" then .secondAuth
  else
    let p := arg.splitOn ' '
    if p.length ≠ 2 ∧ p.headI ≠ "PLAIN".toList then .rejected
    else
      match p.get? 1 with
      | some blob => .decodes blob
      | none => .panicIndexOutOfRange

/-! ## The MAIL/RCPT address regexes (smtpd.go lines 31-34)

`mailFromRE = [Ff][Rr][Oo][Mm]:\s*<(.*)>` and
`rcptToRE = [Tt][Oo]:\s*<(.+)>`, applied with `FindStringSubmatch`:
leftmost start position admitting a full match; at that position `\s*` is
maximal-munch (`<` is not whitespace, so no backtracking arises) and the
greedy capture extends to the last `>` inside the `\n`-free tail (the Go
metacharacter `.` does not match `\n`). -/

/-- RE2 Perl class `\s` = `[\t\n\f\r ]`. -/
def reWS (c : Char) : Bool :=
  c = '\t' || c = '\n' || c = '\x0c' || c = '\r' || c = ' '

/-- Case-insensitive literal prefix match (for the `[Ff][Rr]...` character
classes); `kw` is given lower-case.  Returns the rest of the input. -/
def matchKeyword (kw : List Char) (l : List Char) : Option (List Char) :=
  match kw, l with
  | [], rest => some rest
  | _ :: _, [] => none
  | k :: ks, c :: cs => if c.toLower = k then matchKeyword ks cs else none

/-- Greedy `(.*)>`: the capture runs to the last `>` of the `\n`-free
prefix of the input (`.` matches everything except `\n`, including `>`). -/
def greedyCaptureStar (l : List Char) : Option (List Char) :=
  let p := l.takeWhile (fun c => c ≠ '\n')
  match goLastIndex p '>' with
  | some k => some (p.take k)
  | none => none

/-- Greedy `(.+)>`: as `greedyCaptureStar` but the capture must be
non-empty, so the terminating `>` must not be the first character. -/
def greedyCapturePlus (l : List Char) : Option (List Char) :=
  let p := l.takeWhile (fun c => c ≠ '\n')
  match goLastIndex p '>' with
  | some k => if 1 ≤ k then some (p.take k) else none
  | none => none

/-- Attempt `mailFromRE` anchored at the head of `l`. -/
def matchFromAt (l : List Char) : Option (List Char) :=
  match matchKeyword "from:".toList l with
  | none => none
  | some rest =>
    match rest.dropWhile reWS with
    | '<' :: rest3 => greedyCaptureStar rest3
    | _ => none

/-- Go `mailFromRE.FindStringSubmatch`: the submatch `m[1]`, or `none` when
the regex does not match anywhere in the argument. -/
def findFrom (l : List Char) : Option (List Char) :=
  match matchFromAt l with
  | some cap => some cap
  | none =>
    match l with
    | [] => none
    | _ :: t => findFrom t

/-- Attempt `rcptToRE` anchored at the head of `l`. -/
def matchToAt (l : List Char) : Option (List Char) :=
  match matchKeyword "to:".toList l with
  | none => none
  | some rest =>
    match rest.dropWhile reWS with
    | '<' :: rest3 => greedyCapturePlus rest3
    | _ => none

/-- Go `rcptToRE.FindStringSubmatch`: the submatch `m[1]`. -/
def findTo (l : List Char) : Option (List Char) :=
  match matchToAt l with
  | some cap => some cap
  | none =>
    match l with
    | [] => none
    | _ :: t => findTo t


/-! ## The Envelope interface and the DATA sub-protocol

`Envelope` (smtpd.go lines 70-75) is a Go interface; the engine drives it
through `AddRecipient`, `BeginData`, `Write`, `Close`.  We model an
implementation as a record of state transformers over its private state
`σ`; each method returns the mutated state together with an optional
error, exactly the Go signatures. -/

structure EnvOps (σ : Type) where
  addRecipient : σ → String → σ × Option GoError
  beginData : σ → σ × Option GoError
  write : σ → List Char → σ × Option GoError
  close : σ → σ × Option GoError

/-- Which Envelope method a call during DATA was. -/
inductive CallKind where
  | beginK
  | writeK
  | closeK
deriving DecidableEq, Repr

/-- Result of `session.handleData` (smtpd.go lines 430-464).
`responses` are the lines sent via `sendlinef`/`sendSMTPErrorOrLinef`
(without CRLF), `calls` the Envelope methods invoked in order, `writes`
the byte strings passed to `Write` in order, `envAfter` the session
field `env` on return, `rest` the input lines not consumed, `failCall`
the first Envelope call that returned an error (with that error),
`readErr` whether the body loop hit end-of-input (a Go read error), and
`panicked` whether `sl[0]` was evaluated on an empty slice (unreachable
for `ReadSlice` input, which always ends in `\n`). -/
structure DataOut (σ : Type) where
  responses : List String
  calls : List CallKind
  writes : List (List Char)
  envAfter : Option σ
  rest : List (List Char)
  failCall : Option (CallKind × GoError)
  readErr : Bool
  panicked : Bool
deriving Repr

/-- The body-terminator line: the exact three bytes `.` CR LF. -/
def dotCRLF : List Char := ['.', '\r', '\n']

/-- The dot-unstuffing of smtpd.go lines 449-451: when the first byte of
the line is a dot, the line is re-sliced from index 1 (defined for
non-empty lines; `ReadSlice` lines always end in `\n`). -/
def unstuff (l : List Char) : List Char :=
  match l with
  | [] => []
  | c :: t => if c = '.' then t else c :: t

/-- Whether a body line is kept (is not the terminator `.` CR LF). -/
def keepLine (l : List Char) : Bool := decide (l ≠ dotCRLF)

/-- The body loop of `handleData` (smtpd.go lines 440-457) followed by the
`Close` epilogue (lines 458-463), starting from envelope state `e` after a
successful `BeginData`.  `handleError` (lines 466-473) sends the line of
an `SMTPError` and returns with `env` intact, but clears `env` (sending
nothing) for a generic error; a `Write` error is reported via
`sendSMTPErrorOrLinef` (line 454) and leaves `env` intact. -/
def dataLoop {σ : Type} (ops : EnvOps σ) (e : σ) (input : List (List Char)) :
    DataOut σ :=
  match input with
  | [] =>
    -- `ReadSlice` fails: `s.errorf` then return; `env` is untouched.
    ⟨[], [], [], some e, [], none, true, false⟩
  | sl :: rest =>
    if sl = dotCRLF then
      -- terminator: `s.env.Close()` then `handleError` / queued.
      match ops.close e with
      | (e2, some (.smtp msg)) =>
        ⟨[msg], [.closeK], [], some e2, rest, some (.closeK, .smtp msg), false, false⟩
      | (_, some (.generic msg)) =>
        ⟨[], [.closeK], [], none, rest, some (.closeK, .generic msg), false, false⟩
      | (_, none) =>
        ⟨["250 2.0.0 Ok: queued"], [.closeK], [], none, rest, none, false, false⟩
    else
      match sl with
      | [] => ⟨[], [], [], some e, rest, none, false, true⟩
      | c :: tl =>
        let sl2 := if c = '.' then tl else sl
        match ops.write e sl2 with
        | (e2, some err) =>
          let resp := match err with
            | .smtp msg => msg
            | .generic _ => "550 ??? failed"
          ⟨[resp], [.writeK], [], some e2, rest, some (.writeK, err), false, false⟩
        | (e2, none) =>
          let out := dataLoop ops e2 rest
          ⟨out.responses, .writeK :: out.calls, sl2 :: out.writes,
            out.envAfter, out.rest, out.failCall, out.readErr, out.panicked⟩

/-- Go `session.handleData` (smtpd.go lines 430-464): the 503 guard on a nil
`env`, the `BeginData` call with `handleError` on failure, the
"354 Go ahead" prompt, then the body loop. -/
def handleData {σ : Type} (ops : EnvOps σ) (env : Option σ)
    (input : List (List Char)) : DataOut σ :=
  match env with
  | none => ⟨["503 5.5.1 Error: need RCPT command"], [], [], none, input, none, false, false⟩
  | some e =>
    match ops.beginData e with
    | (e1, some (.smtp msg)) =>
      ⟨[msg], [.beginK], [], some e1, input, some (.beginK, .smtp msg), false, false⟩
    | (_, some (.generic msg)) =>
      ⟨[], [.beginK], [], none, input, some (.beginK, .generic msg), false, false⟩
    | (e1, none) =>
      let out := dataLoop ops e1 input
      ⟨"354 Go ahead" :: out.responses, .beginK :: out.calls, out.writes,
        out.envAfter, out.rest, out.failCall, out.readErr, out.panicked⟩

/-! ## The Envelope of the proxy (main.go lines 62-119) -/

/-- SES message size cap (main.go line 30). -/
def SesSizeLimit : Nat := 10000000

/-- The `Envelope` struct of main.go: sender, recipient list, and the
buffered message bytes.  (`from` is a Lean keyword, hence `efrom`.) -/
structure SesEnvelope where
  efrom : String
  rcpts : List String
  b : List Char
deriving DecidableEq, Repr

/-- The method set of the main.go `Envelope` (lines 70-119).  `sesOk` is
whether the external `SendRawEmail` call in `Close` succeeds; on failure
`Close` returns the literal 451 `SMTPError` of line 115. -/
def sesEnvOps (sesOk : Bool) : EnvOps SesEnvelope where
  addRecipient e r := ({ e with rcpts := e.rcpts ++ [r] }, none)
  beginData e :=
    if e.rcpts = [] then (e, some (.smtp "554 5.5.1 Error: no valid recipients"))
    else (e, none)
  write e line :=
    let e2 := { e with b := e.b ++ line }
    if SesSizeLimit < e2.b.length then
      (e2, some (.smtp "554 5.5.1 Error: maximum message size exceeded"))
    else (e2, none)
  close e :=
    if sesOk then (e, none)
    else (e, some (.smtp "451 4.5.1 Temporary server error. Please try again later"))

/-- An Envelope whose methods all succeed and carry no state, used to
instantiate the generic DATA theorems. -/
def unitOps : EnvOps Unit :=
  ⟨fun e _ => (e, none), fun e => (e, none), fun e _ => (e, none), fun e => (e, none)⟩

/-! ## The session loop (`session.serve`, smtpd.go lines 205-279)

Specialized to the configuration of the proxy (main.go lines 292-301): only
`OnNewMail` is set — `OnAuthentication` and `StartTLS` are nil, so
`validateAuth` always passes, AUTH and STARTTLS answer 502 — and the
proxy callback `OnNewMail` (which never returns an error) builds a fresh
`Envelope` struct whose sender is `from.Email()`. -/

structure Session where
  env : Option SesEnvelope
  helloType : String
  helloHost : String
  authenticated : String
deriving DecidableEq, Repr

def initSession : Session := ⟨none, "", "", ""⟩

/-- Configuration that `handleHello` consults. -/
structure HelloCfg where
  hostname : String
  hasAuth : Bool
  hasTLS : Bool

/-- Go `session.handleHello` (smtpd.go lines 293-313): record greeting/host,
then emit the `250-` greeting and the extension lines, appending
`AUTH PLAIN` / `STARTTLS` only when configured. -/
def handleHello (cfg : HelloCfg) (s : Session) (greeting host : String) :
    Session × List String :=
  let ext1 : List String := if cfg.hasAuth then ["250-AUTH PLAIN"] else []
  let ext2 : List String := ext1 ++ (if cfg.hasTLS then ["250-STARTTLS"] else [])
  let ext3 : List String := ext2 ++
    ["250-PIPELINING", "250-SIZE 10240000", "250-ENHANCEDSTATUSCODES",
      "250-8BITMIME", "250 DSN"]
  ({ s with helloType := greeting, helloHost := host },
    ("250-" ++ cfg.hostname) :: ext3)

/-- One dispatch of the `serve` loop. -/
structure StepOut where
  sAfter : Session
  responses : List String
  restOut : List (List Char)
  closed : Bool
  newMailCalled : Option String
deriving DecidableEq, Repr

/-- Go `session.handleMailFrom` (smtpd.go lines 374-403) with the proxy
callback `OnNewMail` (main.go lines 294-300), which always returns
a new envelope with sender `from.Email()` and a nil error. -/
def handleMailFromStep (s : Session) (em : List Char) (rest : List (List Char)) :
    StepOut :=
  match s.env with
  | some _ => ⟨s, ["503 5.5.1 Error: nested MAIL command"], rest, false, none⟩
  | none =>
    let env : SesEnvelope := ⟨String.mk (addrEmail em), [], []⟩
    ⟨{ s with env := some env }, ["250 2.1.0 Ok"], rest, false,
      some (String.mk (addrEmail em))⟩

/-- Go `session.handleRcpt` (smtpd.go lines 405-428) with the proxy
method `AddRecipient` (main.go lines 70-74); note that the 501 text for RCPT
is also "Bad sender address syntax" (line 419). -/
def handleRcptStep (sesOk : Bool) (s : Session) (arg : String)
    (rest : List (List Char)) : StepOut :=
  match s.env with
  | none => ⟨s, ["503 5.5.1 Error: need MAIL command"], rest, false, none⟩
  | some e =>
    match findTo arg.toList with
    | none => ⟨s, ["501 5.1.7 Bad sender address syntax"], rest, false, none⟩
    | some r =>
      match (sesEnvOps sesOk).addRecipient e (String.mk (addrEmail r)) with
      | (_, some (.smtp msg)) => ⟨s, [msg], rest, false, none⟩
      | (_, some (.generic _)) => ⟨s, ["550 bad recipient"], rest, false, none⟩
      | (e2, none) => ⟨{ s with env := some e2 }, ["250 2.1.0 Ok"], rest, false, none⟩

/-- One iteration of `session.serve` (smtpd.go lines 214-278) in the
proxy configuration: read line `line` (the remaining stream is `rest`),
`checkValid`, then dispatch on the verb. -/
def serveStep (hn : String) (sesOk : Bool) (s : Session) (line : List Char)
    (rest : List (List Char)) : StepOut :=
  match checkValid line with
  | some msg => ⟨s, ["500 " ++ msg], rest, false, none⟩
  | none =>
    if verbOf line = "HELO" ∨ verbOf line = "EHLO" then
      ⟨(handleHello ⟨hn, false, false⟩ s (verbOf line) (argOf line)).1,
        (handleHello ⟨hn, false, false⟩ s (verbOf line) (argOf line)).2,
        rest, false, none⟩
    else if verbOf line = "STARTTLS" then
      ⟨s, ["502 5.5.2 Error: command not recognized"], rest, false, none⟩
    else if verbOf line = "QUIT" then
      ⟨s, ["221 2.0.0 Bye"], rest, true, none⟩
    else if verbOf line = "RSET" then
      ⟨{ s with env := none }, ["250 2.0.0 OK"], rest, false, none⟩
    else if verbOf line = "NOOP" then
      ⟨s, ["250 2.0.0 OK"], rest, false, none⟩
    else if verbOf line = "MAIL" then
      match findFrom (argOf line).toList with
      | none => ⟨s, ["501 5.1.7 Bad sender address syntax"], rest, false, none⟩
      | some em => handleMailFromStep s em rest
    else if verbOf line = "RCPT" then
      handleRcptStep sesOk s (argOf line) rest
    else if verbOf line = "AUTH" then
      ⟨s, ["502 5.5.2 Error: command not recognized"], rest, false, none⟩
    else if verbOf line = "DATA" then
      let o := handleData (sesEnvOps sesOk) s.env rest
      ⟨{ s with env := o.envAfter }, o.responses, o.rest,
        o.readErr || o.panicked, none⟩
    else
      ⟨s, ["502 5.5.2 Error: command not recognized"], rest, false, none⟩

/-- One record of a session trace: the state before the command, the raw
command line, the lines still queued after it on the wire, the responses
the command produced, and the state after it. -/
structure StepRec where
  before : Session
  line : List Char
  restIn : List (List Char)
  responses : List String
  after : Session
deriving DecidableEq, Repr

/-- A trace step that was a successful MAIL command (the only step that
can install an envelope from the empty state, see `step_env_none`). -/
def successMail (r : StepRec) : Prop :=
  verbOf r.line = "MAIL" ∧ r.responses = ["250 2.1.0 Ok"]

/-- The `serve` loop over a finite list of input lines, with structural
fuel.  Each iteration consumes at least the command line itself and
`serveStep` never invents input (`restOut` is a suffix of `rest`), so
`fuel = lines.length` never runs out; `serveLoopFuel_congr` below makes
this irrelevance precise. -/
def serveLoopFuel (hn : String) (sesOk : Bool) :
    Nat → Session → List (List Char) → List StepRec
  | _, _, [] => []
  | 0, _, _ :: _ => []
  | Nat.succ n, s, line :: rest =>
    let o := serveStep hn sesOk s line rest
    ⟨s, line, rest, o.responses, o.sAfter⟩ ::
      (if o.closed then [] else serveLoopFuel hn sesOk n o.sAfter o.restOut)

/-- The session trace of `session.serve` on a finite input. -/
def serveTrace (hn : String) (sesOk : Bool) (s : Session)
    (lines : List (List Char)) : List StepRec :=
  serveLoopFuel hn sesOk lines.length s lines

/-! ## Theorems -/

example : findFrom "FROM:<a@b.com>".toList = some "a@b.com".toList := by decide
example : findFrom "FROM: <a@b.com>".toList = some "a@b.com".toList := by decide
example : findFrom "FROM:a@b.com".toList = none := by decide
example : findFrom "from:<>".toList = some [] := by decide
example : findTo "To:<c@d.com>".toList = some "c@d.com".toList := by decide
example : findTo "TO:<>".toList = none := by decide
example : verbOf "MAIL FROM:<a@b.com>\r\n".toList = "MAIL" := by decide
example : argOf "MAIL FROM:<a@b.com>\r\n".toList = "FROM:<a@b.com>" := by decide
example : checkValid "RSET x\r\n".toList = some "unexpected argument" := by decide
example : checkValid "RSET \r\n".toList = none := by decide
example : checkValid ("QUIT".toList) = some invalidTermMsg := by decide
example : handleAuthGuard true "" "PLAIN".toList = .panicIndexOutOfRange := by decide
example : handleAuthGuard true "" "LOGIN".toList = .rejected := by decide
example : handleAuthGuard true "" "LOGIN eHh4".toList = .decodes "eHh4".toList := by decide

example :
    (serveTrace "mx" true initSession
      ["MAIL FROM:<a@b.com>\r\n".toList, "DATA\r\n".toList]).map
        (fun r => r.responses) =
      [["250 2.1.0 Ok"], ["554 5.5.1 Error: no valid recipients"]] := by decide

example :
    (serveTrace "mx" true initSession
      ["MAIL FROM:<a@b.com>\r\n".toList, "RCPT TO:<c@d.com>\r\n".toList,
       "DATA\r\n".toList, "Subject: hi\r\n".toList, "..x\r\n".toList,
       ".\r\n".toList, "QUIT\r\n".toList]).map (fun r => r.responses) =
      [["250 2.1.0 Ok"], ["250 2.1.0 Ok"],
       ["354 Go ahead", "250 2.0.0 Ok: queued"], ["221 2.0.0 Bye"]] := by decide

lemma goIndex_eq_none {l : List Char} {c : Char} (h : c ∉ l) :
    goIndex l c = none := by
  induction l with
  | nil => rfl
  | cons x xs ih =>
    simp only [List.mem_cons, not_or] at h
    have hx : ¬(x = c) := fun e => h.1 e.symm
    simp only [goIndex, if_neg hx, ih h.2, Option.map_none']

lemma goIndex_append {xs : List Char} (ys : List Char) {c : Char} (h : c ∉ xs) :
    goIndex (xs ++ c :: ys) c = some xs.length := by
  induction xs with
  | nil => simp [goIndex]
  | cons x t ih =>
    simp only [List.mem_cons, not_or] at h
    have hx : ¬(x = c) := fun e => h.1 e.symm
    simp only [List.cons_append, goIndex, if_neg hx, List.append_eq, ih h.2,
      Option.map_some', List.length_cons]

/-- C3 (counterexample): the claim says `Hostname` takes the substring
after the LAST `@`, but the source uses `strings.Index`, the FIRST `@`:
on the explicit input `"x@Y@Z"` the code yields `"y@z"`, not the
spec-modelled `"z"`. -/
theorem hostname_last_at_counterexample :
    addrHostname ("x@Y@Z".toList) = "y@z".toList ∧
    specHostnameLast ("x@Y@Z".toList) = "z".toList ∧
    addrHostname ("x@Y@Z".toList) ≠ specHostnameLast ("x@Y@Z".toList) := by
  decide

/-- C3 (amended): `Email` returns the string as provided, and `Hostname`
returns the lower-cased substring after the FIRST `@` (empty when no `@`
occurs) — which coincides with "after the last `@`" only when the string
contains at most one `@`. -/
theorem hostname_first_at_characterization :
    (∀ a : List Char, addrEmail a = a)
    ∧ (∀ a : List Char, '@' ∉ a → addrHostname a = [])
    ∧ (∀ xs ys : List Char, '@' ∉ xs →
        addrHostname (xs ++ '@' :: ys) = ys.map Char.toLower) := by
  refine ⟨fun a => rfl, ?_, ?_⟩
  · intro a h
    unfold addrHostname
    rw [goIndex_eq_none h]
  · intro xs ys h
    have h2 : xs ++ '@' :: ys = (xs ++ ['@']) ++ ys := by simp
    have h3 : xs.length + 1 = (xs ++ ['@']).length := by simp
    unfold addrHostname
    rw [goIndex_append ys h]
    show ((xs ++ '@' :: ys).drop (xs.length + 1)).map Char.toLower = ys.map Char.toLower
    rw [h2, h3, List.drop_left]

/-- C3 (witness): concrete instances of the amended characterization. -/
theorem hostname_first_at_witness :
    addrEmail ("a@b.com".toList) = "a@b.com".toList ∧
    addrHostname ("nodomain".toList) = [] ∧
    addrHostname ("User".toList ++ '@' :: "B.CoM".toList) = "b.com".toList := by
  refine ⟨hostname_first_at_characterization.1 _, ?_, ?_⟩
  · exact hostname_first_at_characterization.2.1 _ (by decide)
  · exact (hostname_first_at_characterization.2.2 "User".toList "B.CoM".toList
      (by decide)).trans (by decide)

/-- C2: evaluating the AUTH argument guard of `handleAuth` (smtpd.go line
330, `len(p) != 2 && p[0] != "PLAIN"`) at the failing inputs: an argument
of shape `LOGIN <blob>` — two tokens whose first is not `PLAIN` — is NOT
rejected and proceeds to base64 decoding, and so does `PLAIN <blob> extra`
(three tokens); only when both conjuncts hold (e.g. the empty argument, or
a single non-`PLAIN` token) is the command rejected.  The positive case
`PLAIN <blob>` of the claim does proceed. -/
theorem auth_guard_mechanism_eval :
    handleAuthGuard true "" ("LOGIN eHh4".toList) = .decodes ("eHh4".toList)
    ∧ handleAuthGuard true "" ("PLAIN eHh4 extra".toList) = .decodes ("eHh4".toList)
    ∧ handleAuthGuard true "" ("PLAIN eHh4".toList) = .decodes ("eHh4".toList)
    ∧ handleAuthGuard true "" ([]) = .rejected := by
  decide

/-- C9: on the space-free argument `PLAIN`, `strings.Split` yields the
one-element list `["PLAIN"]`, the guard `len(p) != 2 && p[0] != "PLAIN"`
does NOT fire (its second conjunct is false), and the subsequent `p[1]`
is out of bounds — a Go index-out-of-range panic.  A space-free argument
other than `PLAIN` is rejected before any indexing. -/
theorem auth_plain_index_panic_eval :
    ("PLAIN".toList.splitOn ' ').length = 1
    ∧ handleAuthGuard true "" ("PLAIN".toList) = .panicIndexOutOfRange
    ∧ handleAuthGuard true "" ("LOGIN".toList) = .rejected := by
  decide

/-- C6: `FROM:<a@b.com>` parses to `a@b.com`, `FROM: <a@b.com>` (extra
space after the colon) also parses to `a@b.com`, and `FROM:a@b.com` (no
angle brackets) does not match `mailFromRE`, so the MAIL command is
answered with 501 and the new-mail callback is not invoked (the session
state is unchanged). -/
theorem mail_from_parse_cases :
    findFrom ("FROM:<a@b.com>".toList) = some ("a@b.com".toList)
    ∧ findFrom ("FROM: <a@b.com>".toList) = some ("a@b.com".toList)
    ∧ findFrom ("FROM:a@b.com".toList) = none
    ∧ (∀ (hn : String) (sesOk : Bool) (s : Session) (rest : List (List Char)),
        serveStep hn sesOk s ("MAIL FROM:a@b.com\r\n".toList) rest =
          ⟨s, ["501 5.1.7 Bad sender address syntax"], rest, false, none⟩) := by
  refine ⟨by decide, by decide, by decide, fun hn sesOk s rest => rfl⟩

/-! ### The DATA body loop: dot-unstuffing and error discipline -/

lemma dataLoop_writes_rest {σ : Type} (ops : EnvOps σ) (input : List (List Char))
    (hw : ∀ s l, (ops.write s l).2 = none)
    (hne : ∀ l ∈ input, l ≠ ([] : List Char)) :
    ∀ e : σ,
      (dataLoop ops e input).writes = (input.takeWhile keepLine).map unstuff
      ∧ (dataLoop ops e input).rest = (input.dropWhile keepLine).drop 1 := by
  induction input with
  | nil => exact fun e => ⟨rfl, rfl⟩
  | cons sl rest ih =>
    intro e
    have hsl : sl ≠ [] := hne sl (List.mem_cons_self _ _)
    have hrest : ∀ l ∈ rest, l ≠ ([] : List Char) :=
      fun l hl => hne l (List.mem_cons_of_mem _ hl)
    by_cases hterm : sl = dotCRLF
    · subst hterm
      have hk : keepLine dotCRLF = false := by decide
      rcases hc : ops.close e with ⟨e2, errc⟩
      cases errc with
      | none =>
        simp [dataLoop, hc, List.takeWhile_cons, List.dropWhile_cons, hk]
      | some ge =>
        cases ge with
        | smtp msg =>
          simp [dataLoop, hc, List.takeWhile_cons, List.dropWhile_cons, hk]
        | generic msg =>
          simp [dataLoop, hc, List.takeWhile_cons, List.dropWhile_cons, hk]
    · obtain ⟨c, tl, rfl⟩ := List.exists_cons_of_ne_nil hsl
      have hk : keepLine (c :: tl) = true := by
        simp [keepLine, hterm]
      rcases hwc : ops.write e (if c = '.' then tl else c :: tl) with ⟨e2, errw⟩
      have h2 := hw e (if c = '.' then tl else c :: tl)
      rw [hwc] at h2
      dsimp at h2
      subst h2
      have hout := ih hrest e2
      refine ⟨?_, ?_⟩
      · show (dataLoop ops e ((c :: tl) :: rest)).writes = _
        simp only [dataLoop, if_neg hterm, hwc, List.takeWhile_cons, hk,
          if_true, List.map_cons, unstuff]
        exact congrArg₂ _ rfl hout.1
      · show (dataLoop ops e ((c :: tl) :: rest)).rest = _
        simp only [dataLoop, if_neg hterm, hwc, List.dropWhile_cons, hk, if_true]
        exact hout.2

lemma handleData_writes_rest {σ : Type} (ops : EnvOps σ) (e : σ)
    (input : List (List Char))
    (hbd : (ops.beginData e).2 = none)
    (hw : ∀ s l, (ops.write s l).2 = none)
    (hne : ∀ l ∈ input, l ≠ ([] : List Char)) :
    (handleData ops (some e) input).writes = (input.takeWhile keepLine).map unstuff
    ∧ (handleData ops (some e) input).rest = (input.dropWhile keepLine).drop 1 := by
  rcases hc : ops.beginData e with ⟨e1, errb⟩
  have h2 := hbd
  rw [hc] at h2
  dsimp at h2
  subst h2
  have h := dataLoop_writes_rest ops input hw hne e1
  simpa [handleData, hc] using h

/-- C5: during body transfer with an envelope whose `Write` never errors,
the byte strings passed to `Write` are exactly the input lines before the
first terminator line `.` CR LF (which itself is never forwarded), each
with one leading dot stripped when it begins with `.` (so a two-dot line
is forwarded with exactly one dot removed) and unmodified otherwise
(trailing CRLF intact), in arrival order; the lines after the terminator
are left unconsumed. -/
theorem data_dot_unstuffing {σ : Type} (ops : EnvOps σ) (e : σ)
    (input : List (List Char))
    (hbd : (ops.beginData e).2 = none)
    (hw : ∀ s l, (ops.write s l).2 = none)
    (hne : ∀ l ∈ input, l ≠ ([] : List Char)) :
    (handleData ops (some e) input).writes = (input.takeWhile keepLine).map unstuff
    ∧ (handleData ops (some e) input).rest = (input.dropWhile keepLine).drop 1 :=
  handleData_writes_rest ops e input hbd hw hne

/-- C5 (witness): a concrete body containing an ordinary line, a two-dot
line, a one-dot line, the terminator, and a line beyond it. -/
theorem data_dot_unstuffing_witness :
    (handleData unitOps (some ())
        ["a\r\n".toList, "..x\r\n".toList, ".y\r\n".toList,
          ".\r\n".toList, "after\r\n".toList]).writes
      = ["a\r\n".toList, ".x\r\n".toList, "y\r\n".toList]
    ∧ (handleData unitOps (some ())
        ["a\r\n".toList, "..x\r\n".toList, ".y\r\n".toList,
          ".\r\n".toList, "after\r\n".toList]).rest
      = ["after\r\n".toList] := by
  have h := data_dot_unstuffing unitOps ()
    ["a\r\n".toList, "..x\r\n".toList, ".y\r\n".toList,
      ".\r\n".toList, "after\r\n".toList]
    rfl (fun _ _ => rfl) (by decide)
  exact ⟨h.1.trans (by decide), h.2.trans (by decide)⟩

/-- C10: a body line of `.` followed by a bare LF (no CR) does not
terminate the body: its leading dot is stripped, the remaining bytes
(just the LF) are passed to `Write`, and the transfer continues with the
following lines — only the exact three-byte `.` CR LF line terminates. -/
theorem data_bare_lf_not_terminator {σ : Type} (ops : EnvOps σ) (e : σ)
    (rest : List (List Char))
    (hbd : (ops.beginData e).2 = none)
    (hw : ∀ s l, (ops.write s l).2 = none)
    (hne : ∀ l ∈ rest, l ≠ ([] : List Char)) :
    (handleData ops (some e) (['.', '\n'] :: rest)).writes
      = ['\n'] :: (rest.takeWhile keepLine).map unstuff := by
  have hne2 : ∀ l ∈ ('.' :: '\n' :: []) :: rest, l ≠ ([] : List Char) := by
    intro l hl
    rcases List.mem_cons.mp hl with h | h
    · subst h; decide
    · exact hne l h
  have h := (handleData_writes_rest ops e (['.', '\n'] :: rest) hbd hw hne2).1
  rw [h]
  have hk : keepLine ['.', '\n'] = true := by decide
  simp [List.takeWhile_cons, hk, unstuff]

/-- C10 (witness): with a trivial envelope, the body `".\n"` then the real
terminator forwards exactly the bare LF. -/
theorem data_bare_lf_not_terminator_witness :
    (handleData unitOps (some ()) [['.', '\n'], ".\r\n".toList]).writes
      = [['\n']] := by
  have h := data_bare_lf_not_terminator unitOps () [".\r\n".toList]
    rfl (fun _ _ => rfl) (by decide)
  exact h.trans (by decide)

lemma dataLoop_failCall {σ : Type} (ops : EnvOps σ) (input : List (List Char)) :
    ∀ (e : σ) (k : CallKind) (err : GoError),
      (dataLoop ops e input).failCall = some (k, err) →
      (k = CallKind.writeK ∨ k = CallKind.closeK)
      ∧ (dataLoop ops e input).calls ≠ []
      ∧ (dataLoop ops e input).calls.getLast? = some k
      ∧ ((dataLoop ops e input).envAfter = none ↔
          (err.isGeneric = true ∧ k ≠ CallKind.writeK)) := by
  induction input with
  | nil =>
    intro e k err h
    exact absurd h (by simp [dataLoop])
  | cons sl rest ih =>
    intro e k err h
    by_cases hterm : sl = dotCRLF
    · subst hterm
      rcases hc : ops.close e with ⟨e2, errc⟩
      cases errc with
      | none => simp [dataLoop, hc] at h
      | some ge =>
        cases ge with
        | smtp msg =>
          simp only [dataLoop, if_pos rfl, hc] at h ⊢
          obtain ⟨rfl, rfl⟩ := Prod.mk.injEq .. ▸ Option.some.injEq .. ▸ h
          refine ⟨Or.inr rfl, by simp, rfl, ?_⟩
          simp [GoError.isGeneric]
        | generic msg =>
          simp only [dataLoop, if_pos rfl, hc] at h ⊢
          obtain ⟨rfl, rfl⟩ := Prod.mk.injEq .. ▸ Option.some.injEq .. ▸ h
          refine ⟨Or.inr rfl, by simp, rfl, ?_⟩
          simp [GoError.isGeneric]
    · match sl with
      | [] => simp [dataLoop, hterm] at h
      | c :: tl =>
        rcases hwc : ops.write e (if c = '.' then tl else c :: tl) with ⟨e2, errw⟩
        cases errw with
        | some errv =>
          simp only [dataLoop, if_neg hterm, hwc] at h ⊢
          obtain ⟨rfl, rfl⟩ := Prod.mk.injEq .. ▸ Option.some.injEq .. ▸ h
          refine ⟨Or.inl rfl, by simp, rfl, ?_⟩
          simp
        | none =>
          simp only [dataLoop, if_neg hterm, hwc] at h ⊢
          obtain ⟨hk, hn, hl, hiff⟩ := ih e2 k err h
          refine ⟨hk, by simp, ?_, hiff⟩
          obtain ⟨x, xs, hx⟩ := List.exists_cons_of_ne_nil hn
          rw [hx] at hl ⊢
          rw [List.getLast?_cons_cons]
          exact hl

/-- C1 (amended): after an error return from any Envelope method during
DATA, the engine invokes no further Envelope method within that DATA
command (the failing call is the last of the call trace) — but the
session field `env` is cleared only when the error is a generic
(non-`SMTPError`) error from `BeginData` or `Close`; a structured SMTP
error from `BeginData` or `Close`, and any error (structured or not) from
`Write`, leaves the same envelope instance in the session field `env`. -/
theorem envelope_error_discipline {σ : Type} (ops : EnvOps σ) (e : σ)
    (input : List (List Char)) (k : CallKind) (err : GoError)
    (h : (handleData ops (some e) input).failCall = some (k, err)) :
    (handleData ops (some e) input).calls ≠ []
    ∧ (handleData ops (some e) input).calls.getLast? = some k
    ∧ ((handleData ops (some e) input).envAfter = none ↔
        (err.isGeneric = true ∧ k ≠ CallKind.writeK)) := by
  rcases hc : ops.beginData e with ⟨e1, errb⟩
  cases errb with
  | some ge =>
    cases ge with
    | smtp msg =>
      simp only [handleData, hc] at h ⊢
      obtain ⟨rfl, rfl⟩ := Prod.mk.injEq .. ▸ Option.some.injEq .. ▸ h
      refine ⟨by simp, rfl, ?_⟩
      simp [GoError.isGeneric]
    | generic msg =>
      simp only [handleData, hc] at h ⊢
      obtain ⟨rfl, rfl⟩ := Prod.mk.injEq .. ▸ Option.some.injEq .. ▸ h
      refine ⟨by simp, rfl, ?_⟩
      simp [GoError.isGeneric]
  | none =>
    simp only [handleData, hc] at h ⊢
    obtain ⟨hk, hn, hl, hiff⟩ := dataLoop_failCall ops input e1 k err h
    refine ⟨by simp, ?_, hiff⟩
    obtain ⟨x, xs, hx⟩ := List.exists_cons_of_ne_nil hn
    rw [hx] at hl ⊢
    rw [List.getLast?_cons_cons]
    exact hl

/-- C1 (counterexample): with the proxy envelope and an empty recipient
list, `BeginData` returns its structured 554 error during DATA; the
engine reports that line but the session field `env` is NOT cleared —
the same envelope instance stays active, contradicting the claim that
the envelope is always discarded after an error return. -/
theorem envelope_error_discipline_counterexample :
    (handleData (sesEnvOps true) (some ⟨"a@b.com", [], []⟩) []).failCall
      = some (CallKind.beginK, GoError.smtp "554 5.5.1 Error: no valid recipients")
    ∧ (handleData (sesEnvOps true) (some ⟨"a@b.com", [], []⟩) []).responses
      = ["554 5.5.1 Error: no valid recipients"]
    ∧ (handleData (sesEnvOps true) (some ⟨"a@b.com", [], []⟩) []).envAfter ≠ none := by
  decide

/-- C1 (witness): the amended discipline applied to that same failing
`BeginData` call. -/
theorem envelope_error_discipline_witness :
    ((handleData (sesEnvOps true) (some ⟨"x", [], []⟩) []).failCall
      = some (CallKind.beginK, GoError.smtp "554 5.5.1 Error: no valid recipients"))
    ∧ ((handleData (sesEnvOps true) (some ⟨"x", [], []⟩) []).calls ≠ []
      ∧ (handleData (sesEnvOps true) (some ⟨"x", [], []⟩) []).calls.getLast?
          = some CallKind.beginK
      ∧ ((handleData (sesEnvOps true) (some ⟨"x", [], []⟩) []).envAfter = none ↔
          ((GoError.smtp "554 5.5.1 Error: no valid recipients").isGeneric = true
            ∧ CallKind.beginK ≠ CallKind.writeK))) :=
  ⟨by decide,
    envelope_error_discipline (sesEnvOps true) ⟨"x", [], []⟩ [] CallKind.beginK
      (GoError.smtp "554 5.5.1 Error: no valid recipients") (by decide)⟩

/-! ### Parser gate and HELO/EHLO at the session level -/

/-- C7: a raw line not ending in CRLF fails `checkValid` with the
line-termination error; a CRLF-terminated RSET, DATA or QUIT carrying a
non-empty argument fails it with "unexpected argument"; and whenever
`checkValid` fails, `serve` answers `500 <msg>` and no state-machine
handler runs — the session state, the remaining input and the
open/closed status are untouched and no callback is invoked. -/
theorem parse_gate :
    (∀ l : List Char, endsCRLF l = false → checkValid l = some invalidTermMsg)
    ∧ (∀ l : List Char, endsCRLF l = true →
        (verbOf l = "RSET" ∨ verbOf l = "DATA" ∨ verbOf l = "QUIT") →
        argOf l ≠ "" → checkValid l = some "unexpected argument")
    ∧ (∀ (hn : String) (sesOk : Bool) (s : Session) (l : List Char)
        (rest : List (List Char)) (msg : String),
        checkValid l = some msg →
        serveStep hn sesOk s l rest = ⟨s, ["500 " ++ msg], rest, false, none⟩) := by
  refine ⟨?_, ?_, ?_⟩
  · intro l h
    unfold checkValid
    rw [h]
    simp
  · intro l h hv ha
    unfold checkValid
    rw [h]
    simp only [if_true]
    rw [if_pos hv, if_pos ha]
  · intro hn sesOk s l rest msg h
    simp only [serveStep, h]

/-- C7 (witness): `RSET x` is refused by the parser and answered 500
before any handler; a line without CRLF is refused with the termination
error. -/
theorem parse_gate_witness :
    checkValid ("RSET x\r\n".toList) = some "unexpected argument"
    ∧ checkValid ("NOOP".toList) = some invalidTermMsg
    ∧ serveStep "mx" true initSession ("RSET x\r\n".toList) [] =
        ⟨initSession, ["500 unexpected argument"], [], false, none⟩ := by
  refine ⟨parse_gate.2.1 _ (by decide) (by decide) (by decide),
    parse_gate.1 _ (by decide),
    parse_gate.2.2 "mx" true initSession _ [] _
      (parse_gate.2.1 _ (by decide) (by decide) (by decide))⟩

/-- C8: in every session state, a valid HELO or EHLO line is dispatched to
`handleHello`: the session records the hello type (the verb) and host (the
argument), leaves `env` and `authenticated` unchanged, answers with the
250 greeting block, and the session continues. -/
theorem hello_always_accepted (hn : String) (sesOk : Bool) (s : Session)
    (line : List Char) (rest : List (List Char))
    (hv : checkValid line = none)
    (hverb : verbOf line = "HELO" ∨ verbOf line = "EHLO") :
    (serveStep hn sesOk s line rest).sAfter
      = { s with helloType := verbOf line, helloHost := argOf line }
    ∧ (serveStep hn sesOk s line rest).sAfter.env = s.env
    ∧ (serveStep hn sesOk s line rest).sAfter.authenticated = s.authenticated
    ∧ (serveStep hn sesOk s line rest).responses
        = ["250-" ++ hn, "250-PIPELINING", "250-SIZE 10240000",
            "250-ENHANCEDSTATUSCODES", "250-8BITMIME", "250 DSN"]
    ∧ (serveStep hn sesOk s line rest).closed = false := by
  simp only [serveStep, hv]
  rw [if_pos hverb]
  simp [handleHello]

/-- C8 (witness): an EHLO in mid-transaction state (open envelope,
authenticated user) keeps both fields. -/
theorem hello_always_accepted_witness :
    (serveStep "mx" true ⟨some ⟨"f", [], []⟩, "", "", "u"⟩
        ("EHLO client.example\r\n".toList) []).sAfter
      = ⟨some ⟨"f", [], []⟩, "EHLO", "client.example", "u"⟩
    ∧ (serveStep "mx" true ⟨some ⟨"f", [], []⟩, "", "", "u"⟩
        ("EHLO client.example\r\n".toList) []).responses
      = ["250-mx", "250-PIPELINING", "250-SIZE 10240000",
          "250-ENHANCEDSTATUSCODES", "250-8BITMIME", "250 DSN"] := by
  have h := hello_always_accepted "mx" true ⟨some ⟨"f", [], []⟩, "", "", "u"⟩
    ("EHLO client.example\r\n".toList) [] (by decide) (Or.inr (by decide))
  exact ⟨h.1.trans (by decide), h.2.2.2.1⟩

/-! ### Command sequencing along session traces -/

lemma step_rcpt_503 (hn : String) (sesOk : Bool) (s : Session) (line : List Char)
    (rest : List (List Char)) (hv : checkValid line = none)
    (hverb : verbOf line = "RCPT") (henv : s.env = none) :
    (serveStep hn sesOk s line rest).responses
      = ["503 5.5.1 Error: need MAIL command"] := by
  simp [serveStep, hv, hverb, handleRcptStep, henv]

lemma step_data_503 (hn : String) (sesOk : Bool) (s : Session) (line : List Char)
    (rest : List (List Char)) (hv : checkValid line = none)
    (hverb : verbOf line = "DATA") (henv : s.env = none) :
    (serveStep hn sesOk s line rest).responses
      = ["503 5.5.1 Error: need RCPT command"] := by
  simp [serveStep, hv, hverb, handleData, henv]

lemma step_data_554 (hn : String) (sesOk : Bool) (s : Session) (line : List Char)
    (rest : List (List Char)) (e : SesEnvelope) (hv : checkValid line = none)
    (hverb : verbOf line = "DATA") (henv : s.env = some e)
    (hrc : e.rcpts = []) :
    (serveStep hn sesOk s line rest).responses
      = ["554 5.5.1 Error: no valid recipients"] := by
  simp [serveStep, hv, hverb, handleData, henv, sesEnvOps, hrc]

lemma step_env_none (hn : String) (sesOk : Bool) (s : Session) (line : List Char)
    (rest : List (List Char)) (henv : s.env = none) :
    (serveStep hn sesOk s line rest).sAfter.env = none
    ∨ (verbOf line = "MAIL"
        ∧ (serveStep hn sesOk s line rest).responses = ["250 2.1.0 Ok"]) := by
  rcases hcv : checkValid line with _ | msg
  case some => left; simp [serveStep, hcv, henv]
  by_cases h1 : verbOf line = "HELO" ∨ verbOf line = "EHLO"
  · left
    simp only [serveStep, hcv]
    rw [if_pos h1]
    simp [handleHello, henv]
  by_cases h2 : verbOf line = "STARTTLS"
  · left; simp [serveStep, hcv, h1, h2, henv]
  by_cases h3 : verbOf line = "QUIT"
  · left; simp [serveStep, hcv, h1, h2, h3, henv]
  by_cases h4 : verbOf line = "RSET"
  · left; simp [serveStep, hcv, h1, h2, h3, h4]
  by_cases h5 : verbOf line = "NOOP"
  · left; simp [serveStep, hcv, h1, h2, h3, h4, h5, henv]
  by_cases h6 : verbOf line = "MAIL"
  · rcases hf : findFrom (argOf line).toList with _ | em <;>
      simp only [String.toList] at hf
    · left; simp [serveStep, hcv, h1, h2, h3, h4, h5, h6, hf, henv]
    · right
      refine ⟨h6, ?_⟩
      simp [serveStep, hcv, h1, h2, h3, h4, h5, h6, hf, handleMailFromStep, henv]
  by_cases h7 : verbOf line = "RCPT"
  · left
    simp [serveStep, hcv, h1, h2, h3, h4, h5, h6, h7, handleRcptStep, henv]
  by_cases h8 : verbOf line = "AUTH"
  · left; simp [serveStep, hcv, h1, h2, h3, h4, h5, h6, h7, h8, henv]
  by_cases h9 : verbOf line = "DATA"
  · left
    simp [serveStep, hcv, h1, h2, h3, h4, h5, h6, h7, h8, h9, handleData, henv]
  · left; simp [serveStep, hcv, h1, h2, h3, h4, h5, h6, h7, h8, h9, henv]

lemma serveLoopFuel_sound (hn : String) (sesOk : Bool) :
    ∀ (n : Nat) (lines : List (List Char)) (s : Session) (i : Nat) (rec : StepRec),
      (serveLoopFuel hn sesOk n s lines)[i]? = some rec →
      rec.responses = (serveStep hn sesOk rec.before rec.line rec.restIn).responses
      ∧ rec.after = (serveStep hn sesOk rec.before rec.line rec.restIn).sAfter := by
  intro n
  induction n with
  | zero =>
    intro lines s i rec h
    cases lines <;> simp [serveLoopFuel] at h
  | succ n ih =>
    intro lines s i rec h
    cases lines with
    | nil => simp [serveLoopFuel] at h
    | cons line rest =>
      simp only [serveLoopFuel] at h
      cases i with
      | zero =>
        rw [List.getElem?_cons_zero] at h
        injection h with h2
        subst h2
        exact ⟨rfl, rfl⟩
      | succ i =>
        rw [List.getElem?_cons_succ] at h
        by_cases hcl : (serveStep hn sesOk s line rest).closed
        · rw [if_pos hcl] at h
          simp at h
        · rw [if_neg hcl] at h
          exact ih _ _ i rec h

lemma serveLoopFuel_env_none (hn : String) (sesOk : Bool) :
    ∀ (n : Nat) (lines : List (List Char)) (s : Session), s.env = none →
      ∀ (i : Nat) (rec : StepRec),
        (serveLoopFuel hn sesOk n s lines)[i]? = some rec →
        (∀ j prev, j < i → (serveLoopFuel hn sesOk n s lines)[j]? = some prev →
          ¬ successMail prev) →
        rec.before.env = none := by
  intro n
  induction n with
  | zero =>
    intro lines s hs i rec h _
    cases lines <;> simp [serveLoopFuel] at h
  | succ n ih =>
    intro lines s hs i rec h hprev
    cases lines with
    | nil => simp [serveLoopFuel] at h
    | cons line rest =>
      simp only [serveLoopFuel] at h hprev
      cases i with
      | zero =>
        rw [List.getElem?_cons_zero] at h
        injection h with h2
        subst h2
        exact hs
      | succ i =>
        rw [List.getElem?_cons_succ] at h
        by_cases hcl : (serveStep hn sesOk s line rest).closed
        · rw [if_pos hcl] at h
          simp at h
        · rw [if_neg hcl] at h
          have h0 : ¬ successMail ⟨s, line, rest,
              (serveStep hn sesOk s line rest).responses,
              (serveStep hn sesOk s line rest).sAfter⟩ :=
            hprev 0 _ (Nat.succ_pos i) (by rw [List.getElem?_cons_zero])
          have henv2 : (serveStep hn sesOk s line rest).sAfter.env = none := by
            rcases step_env_none hn sesOk s line rest hs with h1 | h1
            · exact h1
            · exact absurd ⟨h1.1, h1.2⟩ h0
          refine ih _ _ henv2 i rec h ?_
          intro j prev hj hp
          refine hprev (j + 1) prev (Nat.succ_lt_succ hj) ?_
          rw [List.getElem?_cons_succ, if_neg hcl]
          exact hp

/-- C4 (amended): in a proxy session, an RCPT command issued before any
successful MAIL is answered "503 need MAIL command", and a DATA command
issued before any successful MAIL is answered "503 need RCPT command";
but a DATA command issued while an envelope with no successful RCPT is
open (i.e. after a successful MAIL, before any successful RCPT) is
answered with the `BeginData` error of the envelope
"554 5.5.1 Error: no valid recipients" — not with a 503. -/
theorem sequencing_responses :
    (∀ (hn : String) (sesOk : Bool) (lines : List (List Char)) (i : Nat)
      (rec : StepRec),
      (serveTrace hn sesOk initSession lines)[i]? = some rec →
      (∀ j prev, j < i → (serveTrace hn sesOk initSession lines)[j]? = some prev →
        ¬ successMail prev) →
      checkValid rec.line = none →
      (verbOf rec.line = "RCPT" →
        rec.responses = ["503 5.5.1 Error: need MAIL command"])
      ∧ (verbOf rec.line = "DATA" →
        rec.responses = ["503 5.5.1 Error: need RCPT command"]))
    ∧ (∀ (hn : String) (sesOk : Bool) (s : Session) (line : List Char)
        (rest : List (List Char)) (e : SesEnvelope),
        checkValid line = none → verbOf line = "DATA" → s.env = some e →
        e.rcpts = [] →
        (serveStep hn sesOk s line rest).responses
          = ["554 5.5.1 Error: no valid recipients"]) := by
  constructor
  · intro hn sesOk lines i rec h hprev hv
    have hb : rec.before.env = none :=
      serveLoopFuel_env_none hn sesOk lines.length lines initSession rfl i rec h hprev
    have hs := (serveLoopFuel_sound hn sesOk lines.length lines initSession i rec h).1
    exact ⟨fun hverb => hs.trans (step_rcpt_503 _ _ _ _ _ hv hverb hb),
      fun hverb => hs.trans (step_data_503 _ _ _ _ _ hv hverb hb)⟩
  · intro hn sesOk s line rest e hv hverb henv hrc
    exact step_data_554 hn sesOk s line rest e hv hverb henv hrc

/-- C4 (counterexample): the two-command session MAIL (successful) then
DATA — issued before any successful RCPT — is answered 554, not 503. -/
theorem sequencing_responses_counterexample :
    ((serveTrace "mx" true initSession
        ["MAIL FROM:<a@b.com>\r\n".toList, "DATA\r\n".toList]).map
          (fun r => r.responses))
      = [["250 2.1.0 Ok"], ["554 5.5.1 Error: no valid recipients"]]
    ∧ (["554 5.5.1 Error: no valid recipients"] : List String)
        ≠ ["503 5.5.1 Error: need RCPT command"] := by
  decide

/-- C4 (witness): the amended theorem applied to the one-command trace
`RCPT TO:<c@d.com>` and to a DATA step on an open zero-recipient
envelope. -/
theorem sequencing_responses_witness :
    ((serveTrace "mx" true initSession ["RCPT TO:<c@d.com>\r\n".toList])[0]?
        = some ⟨initSession, "RCPT TO:<c@d.com>\r\n".toList, [],
            ["503 5.5.1 Error: need MAIL command"], initSession⟩)
    ∧ (⟨initSession, "RCPT TO:<c@d.com>\r\n".toList, [],
          ["503 5.5.1 Error: need MAIL command"], initSession⟩ : StepRec).responses
        = ["503 5.5.1 Error: need MAIL command"]
    ∧ (serveStep "mx" true ⟨some ⟨"a@b.com", [], []⟩, "", "", ""⟩
        ("DATA\r\n".toList) []).responses
        = ["554 5.5.1 Error: no valid recipients"] := by
  refine ⟨by decide, ?_, ?_⟩
  · exact (sequencing_responses.1 "mx" true ["RCPT TO:<c@d.com>\r\n".toList] 0
      ⟨initSession, "RCPT TO:<c@d.com>\r\n".toList, [],
        ["503 5.5.1 Error: need MAIL command"], initSession⟩ (by decide)
      (fun j prev hj _ => absurd hj (Nat.not_lt_zero j)) (by decide)).1 (by decide)
  · exact sequencing_responses.2 "mx" true ⟨some ⟨"a@b.com", [], []⟩, "", "", ""⟩
      ("DATA\r\n".toList) [] ⟨"a@b.com", [], []⟩ (by decide) (by decide) rfl rfl

end SesSmtpd
